import Mathlib

/-!
Verification of the msgpack-rpc core of nvim-previewer.

The definitions below are a shallow embedding of the Rust sources:

* `Value`, `Message`, `Message.read_from`, `Message.write_to` embed
  `src/nvim-rs/src/rpc.rs`.  The external `rmpv` crate provides a
  self-describing value codec (`read_value` / `write_value`); the embedding
  works at that boundary, so `read_from` consumes the `rmpv::Value` produced
  by `read_value` and `write_to` produces the `rmpv::Value` handed to
  `write_value`.  Machine integers are modelled as `Nat`/`Int` with explicit
  range conditions where the Rust code checks them.
* The correlation-engine state machine embeds `src/nvim-agent/src/client.rs`
  (the reader loop in `Client::start`) and the method bodies emitted by
  `Function::generate_method` in `src/nvim-agent/build.rs` (the `call()`
  path).
-/

set_option autoImplicit false
set_option maxRecDepth 8192

namespace NvimRs

/-- Embedding of `rmpv::Value`: the closed dynamic value type used for every
field on the wire.  An `rmpv` integer stores either an `u64` or an `i64`; we
model it as an unbounded `Int` and put the machine-range checks into the
accessors, exactly where `rmpv` performs them.  A float is carried by its raw
bit pattern so that equality of values is structural. -/
inductive Value where
  | nil : Value
  | bool (b : Bool) : Value
  | integer (i : Int) : Value
  | float (bits : Nat) : Value
  | str (s : String) : Value
  | bin (bytes : List Nat) : Value
  | array (items : List Value) : Value
  | map (pairs : List (Value × Value)) : Value
  | ext (tag : Int) (data : List Nat) : Value

/-- Embeds `rmpv::Value::as_array`: `Some` exactly on the `Array` variant. -/
def Value.as_array : Value → Option (List Value)
  | .array items => some items
  | _ => none

/-- Embeds `rmpv::Value::as_i64`: `Some` exactly on an integer that fits `i64`. -/
def Value.as_i64 : Value → Option Int
  | .integer i => if -9223372036854775808 ≤ i ∧ i < 9223372036854775808 then some i else none
  | _ => none

/-- Embeds `rmpv::Value::as_u64`: `Some` exactly on an integer that fits `u64`. -/
def Value.as_u64 : Value → Option Nat
  | .integer i => if 0 ≤ i ∧ i < 18446744073709551616 then some i.toNat else none
  | _ => none

/-- Embeds `rmpv::Value::as_str`: `Some` exactly on the string variant (the embedded
strings are always valid UTF-8, as are all strings built by this client). -/
def Value.as_str : Value → Option String
  | .str s => some s
  | _ => none

/-- Models the Rust comparison `v != Value::Nil` (true iff `v` is `Nil`,
negated at use sites just like the source). -/
def Value.isNil : Value → Bool
  | .nil => true
  | _ => false

/-- Embedding of `Message` from `src/nvim-rs/src/rpc.rs`.  `msgid` is a `u64`
in Rust; it is modelled as a `Nat`, with `msgid < 2 ^ 64` as the
well-formedness condition that the Rust type enforces. -/
inductive Message where
  | request (msgid : Nat) (method : String) (params : List Value) : Message
  | response (msgid : Nat) (error : Value) (result : Value) : Message
  | notify (method : String) (params : List Value) : Message

/-- The range invariant the Rust `u64` field type gives for free. -/
def Message.wf : Message → Prop
  | .request msgid _ _ => msgid < 18446744073709551616
  | .response msgid _ _ => msgid < 18446744073709551616
  | .notify _ _ => True

/-- The decode failures of `Message::read_from`, one constructor per
`wraperr!` context string plus the unknown-tag `Error::Dirty`. -/
inductive DecodeErr where
  /-- Context `"RPC reader is broken"`: `read_value` itself failed (stream end or
  I/O or msgpack-level error). -/
  | brokenReader : DecodeErr
  /-- Context `"RPC message must be an array"`. -/
  | notArray : DecodeErr
  /-- Context `"failed to get message type"`. -/
  | noType : DecodeErr
  /-- Context `"failed to get message id"`. -/
  | noMsgid : DecodeErr
  /-- Context `"failed to get message method"`. -/
  | noMethod : DecodeErr
  /-- Context `"failed to get message params"`. -/
  | noParams : DecodeErr
  /-- Context `"failed to get message error"`. -/
  | noError : DecodeErr
  /-- Context `"failed to get message result"`. -/
  | noResult : DecodeErr
  /-- Embeds `Error::Dirty("unknown message: ...")` for a tag outside 0/1/2. -/
  | unknownMessage (arr : List Value) : DecodeErr

/-- Embeds `wraperr!(option, msg)?` from the source: an absent `Option` becomes the
error for that context string, a present one continues the computation. -/
def require {α : Type} (o : Option α) (e : DecodeErr) : Except DecodeErr α :=
  match o with
  | some a => .ok a
  | none => .error e

/-- The tag-0 arm of the `match` in `Message::read_from`: destructure
`[_, msgid, method, params]` into a `Request`. -/
def readRequest (arr : List Value) : Except DecodeErr Message := do
  let msgid ← require ((arr.get? 1).bind Value.as_u64) .noMsgid
  let method ← require ((arr.get? 2).bind Value.as_str) .noMethod
  let params ← require ((arr.get? 3).bind Value.as_array) .noParams
  return .request msgid method params

/-- The tag-1 arm of the `match` in `Message::read_from`: destructure
`[_, msgid, error, result]` into a `Response`. -/
def readResponse (arr : List Value) : Except DecodeErr Message := do
  let msgid ← require ((arr.get? 1).bind Value.as_u64) .noMsgid
  let error ← require (arr.get? 2) .noError
  let result ← require (arr.get? 3) .noResult
  return .response msgid error result

/-- The tag-2 arm of the `match` in `Message::read_from`: destructure
`[_, method, params]` into a `Notify`. -/
def readNotify (arr : List Value) : Except DecodeErr Message := do
  let method ← require ((arr.get? 1).bind Value.as_str) .noMethod
  let params ← require ((arr.get? 2).bind Value.as_array) .noParams
  return .notify method params

/-- Embedding of `Message::read_from` (src/nvim-rs/src/rpc.rs), applied to
the value already decoded by `rmpv::decode::read_value`.  Each `wraperr!(..)?`
line becomes a `require` bind; the Rust `match` on `as_i64()` with arms `0`,
`1`, `2`, `_` is an equality chain on the extracted `i64`, with one
definition per arm. -/
def Message.read_from (value : Value) : Except DecodeErr Message := do
  let arr ← require value.as_array .notArray
  let t ← require ((arr.get? 0).bind Value.as_i64) .noType
  if t = 0 then readRequest arr
  else if t = 1 then readResponse arr
  else if t = 2 then readNotify arr
  else .error (.unknownMessage arr)

/-- Embedding of `Message::write_to` (src/nvim-rs/src/rpc.rs): the array
value that the Rust code builds by successive `push` calls and hands to
`rmpv::encode::write_value`.  `Value::from(0i32)`/`Value::from(u64)` both
produce integer values. -/
def Message.write_to : Message → Value
  | .request msgid method params =>
      .array [.integer 0, .integer msgid, .str method, .array params]
  | .response msgid error result =>
      .array [.integer 1, .integer msgid, error, result]
  | .notify method params =>
      .array [.integer 2, .str method, .array params]

/-- Returns `true` exactly on `Except.error`. -/
def isErr {ε α : Type} : Except ε α → Bool
  | .error _ => true
  | .ok _ => false

/-! ## Correlation engine

State machine embedding of the reader loop in `Client::start`
(src/nvim-agent/src/client.rs) and of the method bodies emitted by
`Function::generate_method` (src/nvim-agent/build.rs). -/

/-- Values delivered through a reply slot and returned by a generated
method.  `Error::Dirty(..)` is produced at three places; the payload the
format string renders is kept as structured data. -/
inductive EngineErr where
  /-- Reader loop: `Error::Dirty(format!("{error:?}"))` for a `Response`
  whose error field is non-Nil. -/
  | responseError (e : Value) : EngineErr
  /-- Generated method: `Ok(Err(e)) => Err(Error::Dirty(format!("{e:?}")))`
  re-wraps the delivered error once more. -/
  | rewrapped (e : EngineErr) : EngineErr
  /-- Generated method: `receiver.recv()` returned `Err(RecvError)`. -/
  | recvDisconnected : EngineErr

/-- Observable state of the engine around one reader-loop iteration.
`tasks` is the pending-call table (msgid to reply slot id); `delivered`
records the values sent into reply slots; `outbox` the frames the reader
loop wrote back; `notif` what was sent into the notification channel.
`panicked` is set when the thread dies in `unwrap`/`expect`; `stopped`
when the loop exits through its `break`. -/
structure ReaderState where
  tasks : List (Nat × Nat)
  delivered : List (Nat × Except EngineErr Value)
  outbox : List Message
  notif : List (String × List Value)
  panicked : Bool
  stopped : Bool

/-- The value sent into the reply slot for a matched `Response`:
`if error != Value::Nil { Err(Error::Dirty(format!("{error:?}"))) } else
{ Ok(result) }`. -/
def deliverValue (error result : Value) : Except EngineErr Value :=
  if error.isNil then .ok result else .error (.responseError error)

/-- The `Ok(Message::Response ..)` arm of the reader loop:
`senders.lock().unwrap().remove(&msgid).unwrap()` followed by the send.
The `HashMap::remove` is `eraseP` on the association list; a miss makes
`Option::unwrap` panic the reader thread. -/
def respondStep (s : ReaderState) (msgid : Nat) (error result : Value) :
    ReaderState :=
  match s.tasks.lookup msgid with
  | none => { s with panicked := true }
  | some slot =>
      { s with
          tasks := s.tasks.eraseP (fun p => p.1 == msgid)
          delivered := s.delivered ++ [(slot, deliverValue error result)] }

/-- One iteration of the reader loop in `Client::start`, on the result of
`Message::read_from`.  `writeOk` tells whether the `write_to` performed in
the `Request` arm succeeds; `resp.write_to(writer).expect(..)` panics the
thread when it does not.  A decode error is logged and the loop breaks;
nothing else is done, in particular `tasks` is left untouched. -/
def readerStep (s : ReaderState) (writeOk : Bool)
    (msg : Except DecodeErr Message) : ReaderState :=
  match msg with
  | .error _ => { s with stopped := true }
  | .ok (.request msgid _ _) =>
      if writeOk then
        { s with outbox := s.outbox ++ [.response msgid .nil .nil] }
      else { s with panicked := true }
  | .ok (.response msgid error result) => respondStep s msgid error result
  | .ok (.notify method params) =>
      { s with notif := s.notif ++ [(method, params)] }

/-- A reader state with the given pending table and nothing else. -/
def mkReader (tasks : List (Nat × Nat)) : ReaderState :=
  { tasks := tasks, delivered := [], outbox := [], notif := [],
    panicked := false, stopped := false }

/-- After the reader loop is gone, a waiter on `slot` stays blocked in
`receiver.recv()` exactly when its `Sender` is still alive inside the
`tasks` map (which the `Client` keeps owning) and no value was ever sent:
`recv` returns only on a sent value or once every sender is dropped. -/
def blockedForever (s : ReaderState) (slot : Nat) : Bool :=
  s.tasks.any (fun p => p.2 == slot) && s.delivered.all (fun p => p.1 != slot)

/-- What `receiver.recv()` yields to the generated method: `Ok(value)` or
`Err(RecvError)` once every sender is dropped without a send. -/
inductive RecvResult where
  | value (v : Except EngineErr Value) : RecvResult
  | disconnected : RecvResult

/-- The `match receiver.recv()` tail of the generated method, for a method
whose declared return type is `Object` (so that `r.try_value_into()` is the
identity conversion `TryValueFrom<Value> for rmpv::Value`). -/
def callFinish (r : RecvResult) : Except EngineErr Value :=
  match r with
  | .value (.ok v) => .ok v
  | .value (.error e) => .error (.rewrapped e)
  | .disconnected => .error .recvDisconnected

/-- Outcome of one generated-method invocation: either the thread panics
inside an `expect`, or a value is returned to the caller. -/
inductive CallOutcome where
  | panicked : CallOutcome
  | returned (r : Except EngineErr Value) : CallOutcome

/-- Embeds `req.write_to(writer).expect("Error sending message")` followed by the
`recv` match: a failed write panics the calling thread before any wait. -/
def callWriteStep (writeOk : Bool) (recvd : RecvResult) : CallOutcome :=
  if writeOk then .returned (callFinish recvd) else .panicked

/-- The atomic actions of the generated method body, in program order. -/
inductive CallAction where
  | reserveMsgid : CallAction
  | insertPending : CallAction
  | lockWriter : CallAction
  | writeRequest : CallAction
  | recvWait : CallAction
  | unlockWriter : CallAction
  | returnResult : CallAction
  deriving DecidableEq

/-- Program-order action sequence of the generated method body
(`Function::generate_method`, src/nvim-agent/build.rs):
`let msgid = ..; msgid += 1;` then the `tasks` insert, then
`let writer = &mut *caller.writer.lock().unwrap();` and the write, then
`receiver.recv()`.  The writer `MutexGuard` is a temporary whose lifetime
is extended to the end of the method body (Rust temporary lifetime
extension through `&mut *`), so its drop — the unlock — runs only after
the `match` on `receiver.recv()` has produced the return value. -/
def callActions : List CallAction :=
  [.reserveMsgid, .insertPending, .lockWriter, .writeRequest, .recvWait,
   .unlockWriter, .returnResult]

/-! ## msgid counter -/

/-- The constant `2 ^ 64`, the wrap-around modulus of the Rust `u64` counter. -/
def U64 : Nat := 18446744073709551616

/-- The per-connection fields touched by the call path: the `msgid` counter
(`Client::new` starts it at 0) and the set of msgid keys present in the
`tasks` map. -/
structure CallerState where
  msgid : Nat
  pending : List Nat

/-- Events that mutate those fields: a generated-method invocation
(`let msgid = self.msgid; self.msgid += 1;` followed by the `tasks`
insert), and the reader loop removing an entry on a matched `Response`. -/
inductive ClientEvent where
  | call : ClientEvent
  | response (msgid : Nat) : ClientEvent

/-- Effect of one event.  The `u64` increment wraps modulo `2 ^ 64`. -/
def clientStep (s : CallerState) : ClientEvent → CallerState
  | .call => { msgid := (s.msgid + 1) % U64, pending := s.msgid :: s.pending }
  | .response m => { s with pending := s.pending.erase m }

/-- Embeds `Client::new`: counter 0, empty table. -/
def initCaller : CallerState := { msgid := 0, pending := [] }

/-- The msgid values reserved by the successive `call` events of a trace. -/
def assignedMsgids : CallerState → List ClientEvent → List Nat
  | _, [] => []
  | s, .call :: es => s.msgid :: assignedMsgids (clientStep s .call) es
  | s, .response m :: es => assignedMsgids (clientStep s (.response m)) es

/-- Every `call` event of the trace reserves an msgid that has no pending
entry at that moment. -/
def freshAtCalls : CallerState → List ClientEvent → Prop
  | _, [] => True
  | s, .call :: es =>
      s.msgid ∉ s.pending ∧ freshAtCalls (clientStep s .call) es
  | s, .response m :: es => freshAtCalls (clientStep s (.response m)) es

/-- Number of `call` events in a trace. -/
def numCalls : List ClientEvent → Nat
  | [] => 0
  | .call :: es => numCalls es + 1
  | .response _ :: es => numCalls es

/-! ## Spec-side framing condition (for the refinement claim about
`read_from` failures) -/

/-- Spec §3 table: msgid must be an unsigned 64-bit integer. -/
def isU64 (v : Value) : Bool :=
  match v with
  | .integer i => decide (0 ≤ i ∧ i < 18446744073709551616)
  | _ => false

/-- Spec §3 table: method must be a string. -/
def isStr (v : Value) : Bool :=
  match v with
  | .str _ => true
  | _ => false

/-- Spec §3 table: params must be an ordered sequence. -/
def isArr (v : Value) : Bool :=
  match v with
  | .array _ => true
  | _ => false

/-- Spec §3 table: error/result may be any value (present suffices). -/
def isAny (_ : Value) : Bool := true

/-- The positional field `i` is present and of the required kind. -/
def fieldOk (arr : List Value) (i : Nat) (p : Value → Bool) : Bool :=
  match arr.get? i with
  | some v => p v
  | none => false

/-- The framing-error condition on an array, per the §3 table and §4.1:
missing or non-integer tag, tag outside {0,1,2}, or a required positional
field missing or of the wrong kind for the tag's variant. -/
def specArrayFramingError (arr : List Value) : Bool :=
  match arr.get? 0 with
  | some (.integer t) =>
      if t = 0 then
        !(fieldOk arr 1 isU64 && fieldOk arr 2 isStr && fieldOk arr 3 isArr)
      else if t = 1 then
        !(fieldOk arr 1 isU64 && fieldOk arr 2 isAny && fieldOk arr 3 isAny)
      else if t = 2 then
        !(fieldOk arr 1 isStr && fieldOk arr 2 isArr)
      else true
  | _ => true

/-- Modelled from the spec's words (§4.1): `read_from` "fails with a
FramingError when: the value is not an array, the tag is missing or
non-integer, a required field is missing or of the wrong kind, or the tag
is not in {0,1,2}", with the required fields given by the §3 table. -/
def specFramingError (v : Value) : Bool :=
  match v with
  | .array arr => specArrayFramingError arr
  | _ => true

@[simp] theorem require_some {α : Type} (a : α) (e : DecodeErr) :
    require (some a) e = .ok a := rfl

@[simp] theorem require_none {α : Type} (e : DecodeErr) :
    require (none : Option α) e = .error e := rfl

@[simp] theorem ok_bind {ε α β : Type} (a : α) (f : α → Except ε β) :
    (Except.ok a : Except ε α) >>= f = f a := rfl

@[simp] theorem error_bind {ε α β : Type} (e : ε) (f : α → Except ε β) :
    (Except.error e : Except ε α) >>= f = .error e := rfl

@[simp] theorem pure_eq_ok {ε α : Type} (a : α) :
    (pure a : Except ε α) = .ok a := rfl

/-- An integer in `i64` range is read back by `as_i64`. -/
theorem as_i64_small (i : Int) (hlo : -9223372036854775808 ≤ i)
    (hhi : i < 9223372036854775808) :
    Value.as_i64 (.integer i) = some i := by
  simp only [Value.as_i64]
  rw [if_pos ⟨hlo, hhi⟩]

/-- A `u64` written into an integer value is read back by `as_u64`. -/
theorem as_u64_natCast (n : Nat) (h : n < 18446744073709551616) :
    Value.as_u64 (.integer (n : Int)) = some n := by
  simp only [Value.as_u64]
  rw [if_pos ⟨Int.natCast_nonneg n, by exact_mod_cast h⟩]
  simp

/-- Evaluation of `readRequest` once all three fields extract. -/
theorem readRequest_eval (arr : List Value) (msgid : Nat) (method : String)
    (params : List Value)
    (h1 : (arr.get? 1).bind Value.as_u64 = some msgid)
    (h2 : (arr.get? 2).bind Value.as_str = some method)
    (h3 : (arr.get? 3).bind Value.as_array = some params) :
    readRequest arr = .ok (.request msgid method params) := by
  unfold readRequest
  rw [h1, h2, h3]
  rfl

/-- Evaluation of `readResponse` once all three fields extract. -/
theorem readResponse_eval (arr : List Value) (msgid : Nat)
    (error result : Value)
    (h1 : (arr.get? 1).bind Value.as_u64 = some msgid)
    (h2 : arr.get? 2 = some error) (h3 : arr.get? 3 = some result) :
    readResponse arr = .ok (.response msgid error result) := by
  unfold readResponse
  rw [h1, h2, h3]
  rfl

/-- Evaluation of `readNotify` once both fields extract. -/
theorem readNotify_eval (arr : List Value) (method : String)
    (params : List Value)
    (h1 : (arr.get? 1).bind Value.as_str = some method)
    (h2 : (arr.get? 2).bind Value.as_array = some params) :
    readNotify arr = .ok (.notify method params) := by
  unfold readNotify
  rw [h1, h2]
  rfl

/-- Dispatch: `read_from` on an array branches on the extracted tag. -/
theorem read_from_tag (arr : List Value) (t : Int)
    (h : (arr.get? 0).bind Value.as_i64 = some t) :
    Message.read_from (.array arr) =
      if t = 0 then readRequest arr
      else if t = 1 then readResponse arr
      else if t = 2 then readNotify arr
      else .error (.unknownMessage arr) := by
  have step1 : Message.read_from (.array arr) =
      require ((arr.get? 0).bind Value.as_i64) .noType >>= (fun t =>
        if t = 0 then readRequest arr
        else if t = 1 then readResponse arr
        else if t = 2 then readNotify arr
        else .error (.unknownMessage arr)) := rfl
  rw [step1, h, require_some]
  rfl

/-- C4: encoding any well-formed message and decoding the produced value
yields the original message. -/
theorem write_read_roundtrip (m : Message) (h : m.wf) :
    Message.read_from m.write_to = .ok m := by
  cases m with
  | request msgid method params =>
    have h1 : (([.integer 0, .integer msgid, .str method,
        .array params] : List Value).get? 1).bind Value.as_u64 = some msgid := by
      rw [show ([.integer 0, .integer msgid, .str method,
        .array params] : List Value).get? 1 = some (.integer msgid) from rfl,
        Option.some_bind]
      exact as_u64_natCast msgid h
    rw [show Message.write_to (.request msgid method params) =
      .array [.integer 0, .integer msgid, .str method, .array params] from rfl]
    rw [read_from_tag [.integer 0, .integer msgid, .str method, .array params]
      0 rfl, if_pos rfl]
    exact readRequest_eval _ msgid method params h1 rfl rfl
  | response msgid error result =>
    have h1 : (([.integer 1, .integer msgid, error,
        result] : List Value).get? 1).bind Value.as_u64 = some msgid := by
      rw [show ([.integer 1, .integer msgid, error,
        result] : List Value).get? 1 = some (.integer msgid) from rfl,
        Option.some_bind]
      exact as_u64_natCast msgid h
    rw [show Message.write_to (.response msgid error result) =
      .array [.integer 1, .integer msgid, error, result] from rfl]
    rw [read_from_tag [.integer 1, .integer msgid, error, result] 1 rfl,
      if_neg (by norm_num), if_pos rfl]
    exact readResponse_eval _ msgid error result h1 rfl rfl
  | notify method params =>
    rw [show Message.write_to (.notify method params) =
      .array [.integer 2, .str method, .array params] from rfl]
    rw [read_from_tag [.integer 2, .str method, .array params] 2 rfl,
      if_neg (by norm_num), if_neg (by norm_num), if_pos rfl]
    exact readNotify_eval _ method params rfl rfl

/-- C4 witness: the roundtrip at a concrete request. -/
theorem write_read_roundtrip_witness :
    (Message.request 1 "add" [.integer 2, .integer 3]).wf ∧
      Message.read_from (Message.request 1 "add"
        [.integer 2, .integer 3]).write_to =
        .ok (Message.request 1 "add" [.integer 2, .integer 3]) :=
  ⟨by norm_num [Message.wf],
   write_read_roundtrip _ (by norm_num [Message.wf])⟩

/-- C9: an inbound `Request` is answered by exactly one canned
`Response { msgid, error: Nil, result: Nil }` written back to the peer;
nothing else in the engine state changes — in particular no application
handler is consulted (the model has none, as the code has none). -/
theorem request_canned_reply (s : ReaderState) (msgid : Nat)
    (method : String) (params : List Value) :
    readerStep s true (.ok (.request msgid method params)) =
      { s with outbox := s.outbox ++ [.response msgid .nil .nil] } := rfl

/-- C2 counterexample: a `Response` whose msgid has no pending entry does
not leave the reader loop running — the `remove(&msgid).unwrap()` panics
the reader thread (here: from a state with msgid 1 pending, a Response
for msgid 7). -/
theorem unmatched_response_panics :
    (readerStep (mkReader [(1, 0)]) true
        (.ok (.response 7 .nil .nil))).panicked = true ∧
      (readerStep (mkReader [(1, 0)]) true
        (.ok (.response 7 .nil .nil))).tasks = [(1, 0)] :=
  ⟨rfl, rfl⟩

/-- C2 amended: a `Response` bearing an msgid with no entry in the
pending-call table makes the reader thread panic (`unwrap` of `None`); the
rest of the state, in particular every pending call, is untouched. -/
theorem unmatched_response_panics_general (s : ReaderState) (writeOk : Bool)
    (msgid : Nat) (error result : Value)
    (h : s.tasks.lookup msgid = none) :
    readerStep s writeOk (.ok (.response msgid error result)) =
      { s with panicked := true } := by
  have step : readerStep s writeOk (.ok (.response msgid error result)) =
      respondStep s msgid error result := rfl
  rw [step]
  unfold respondStep
  rw [h]

/-- C2 amended witness. -/
theorem unmatched_response_panics_general_witness :
    (mkReader [(1, 0)]).tasks.lookup 7 = none ∧
      readerStep (mkReader [(1, 0)]) true (.ok (.response 7 .nil .nil)) =
        { mkReader [(1, 0)] with panicked := true } :=
  ⟨rfl, unmatched_response_panics_general (mkReader [(1, 0)]) true 7
    .nil .nil rfl⟩

/-- C5: a `Response` correlated to a pending call removes its entry and
delivers `Ok(result)` when the error field is Nil, otherwise the error
value wrapped as a `ResponseError`; the generated method then returns the
delivered value as is, or the error re-wrapped once more (still carrying
the peer's error value). -/
theorem response_resolution (s : ReaderState) (slot msgid : Nat)
    (error result : Value) (h : s.tasks.lookup msgid = some slot) :
    readerStep s true (.ok (.response msgid error result)) =
      { s with
          tasks := s.tasks.eraseP (fun p => p.1 == msgid)
          delivered := s.delivered ++ [(slot, deliverValue error result)] } ∧
    callFinish (.value (deliverValue error result)) =
      (if error.isNil then .ok result
       else .error (.rewrapped (.responseError error))) := by
  constructor
  · have step : readerStep s true (.ok (.response msgid error result)) =
        respondStep s msgid error result := rfl
    rw [step]
    unfold respondStep
    rw [h]
  · unfold deliverValue
    cases hn : error.isNil
    · rw [if_neg (by simp), if_neg (by simp)]
      rfl
    · rw [if_pos rfl, if_pos rfl]
      rfl

/-- C5 witness: the "add" scenario — `Response{msgid, error: Nil,
result: 5}` resolves the pending call with `Ok(5)`. -/
theorem response_resolution_witness :
    (mkReader [(1, 0)]).tasks.lookup 1 = some 0 ∧
      (readerStep (mkReader [(1, 0)]) true
          (.ok (.response 1 .nil (.integer 5))) =
        { mkReader [(1, 0)] with
            tasks := []
            delivered := [(0, deliverValue .nil (.integer 5))] } ∧
      callFinish (.value (deliverValue .nil (.integer 5))) =
        (if (Value.nil).isNil then .ok (.integer 5)
         else .error (.rewrapped (.responseError .nil)))) :=
  ⟨rfl, response_resolution (mkReader [(1, 0)]) 0 1 .nil (.integer 5) rfl⟩

/-- C1 (evaluating the code at the failing input): the inbound stream ends
while the call with msgid 0 is pending; the reader loop breaks, but the
pending entry — and with it the caller's `Sender` — stays in the `tasks`
map owned by the `Client`, so the waiter's `recv()` can never return:
it is blocked forever instead of resolving with a `DeliveryError`. -/
theorem reader_shutdown_leaves_waiter_blocked :
    (readerStep (mkReader [(0, 0)]) true (.error .brokenReader)).stopped
        = true ∧
      blockedForever
        (readerStep (mkReader [(0, 0)]) true (.error .brokenReader)) 0
        = true :=
  ⟨rfl, rfl⟩

/-- C7 counterexample: a failed write does not surface as the call's error
result nor as a logged-and-continue in the reader loop — both paths panic
through `expect`: the calling thread for `call()`, and the reader thread
when answering an inbound Request. -/
theorem write_failure_panics :
    callWriteStep false (.value (.ok .nil)) = .panicked ∧
      (readerStep (mkReader []) false
        (.ok (.request 1 "m" []))).panicked = true :=
  ⟨rfl, rfl⟩

/-- C7 amended: a write failure during `call()` panics the calling thread
before any wait (no error value is returned), and a write failure while
answering an inbound `Request` panics the reader thread, terminating the
reader loop. -/
theorem write_failure_panics_general (s : ReaderState) (recvd : RecvResult)
    (msgid : Nat) (method : String) (params : List Value) :
    callWriteStep false recvd = .panicked ∧
      readerStep s false (.ok (.request msgid method params)) =
        { s with panicked := true } :=
  ⟨rfl, rfl⟩

/-- A trace without `call` events assigns no msgid and is trivially fresh. -/
theorem no_calls_aux (es : List ClientEvent) :
    ∀ s : CallerState, numCalls es = 0 →
      assignedMsgids s es = [] ∧ freshAtCalls s es := by
  induction es with
  | nil => exact fun s _ => ⟨rfl, trivial⟩
  | cons e es ih =>
    intro s h
    cases e with
    | call => simp [numCalls] at h
    | response m =>
      have h' : numCalls es = 0 := h
      exact ⟨(ih _ h').1, (ih _ h').2⟩

/-- Counter invariant: starting from counter value `k` with every pending
msgid below `k`, a trace whose calls do not overrun the `u64` range
assigns exactly `k, k+1, ...` and each call finds its msgid unpended. -/
theorem caller_aux (es : List ClientEvent) :
    ∀ (s : CallerState) (k : Nat), s.msgid = k →
      k + numCalls es ≤ U64 → (∀ m ∈ s.pending, m < k) →
      assignedMsgids s es = List.range' k (numCalls es) ∧
        freshAtCalls s es := by
  induction es with
  | nil => exact fun s k _ _ _ => ⟨rfl, trivial⟩
  | cons e es ih =>
    intro s k hm hk hp
    cases e with
    | response m =>
      have hp' : ∀ x ∈ s.pending.erase m, x < k :=
        fun x hx => hp x (List.mem_of_mem_erase hx)
      have h1 := ih (clientStep s (.response m)) k hm hk hp'
      exact ⟨h1.1, h1.2⟩
    | call =>
      have hk2 : k + (numCalls es + 1) ≤ U64 := hk
      have hnotp : s.msgid ∉ s.pending := by
        rw [hm]
        intro hmem
        exact absurd (hp k hmem) (lt_irrefl k)
      by_cases hlt : k + 1 < U64
      · have hs' : (clientStep s .call).msgid = k + 1 := by
          show (s.msgid + 1) % U64 = k + 1
          rw [hm]
          exact Nat.mod_eq_of_lt hlt
        have hp' : ∀ x ∈ (clientStep s .call).pending, x < k + 1 := by
          intro x hx
          rcases List.mem_cons.mp hx with h | h
          · rw [h, hm]
            omega
          · exact lt_trans (hp x h) (by omega)
        obtain ⟨ha, hf⟩ := ih (clientStep s .call) (k + 1) hs'
          (by omega) hp'
        constructor
        · show s.msgid :: assignedMsgids (clientStep s .call) es =
            List.range' k (numCalls (ClientEvent.call :: es))
          rw [hm, ha]
          rfl
        · exact ⟨hnotp, hf⟩
      · have h0 : numCalls es = 0 := by omega
        obtain ⟨ha, hf⟩ := no_calls_aux es (clientStep s .call) h0
        constructor
        · show s.msgid :: assignedMsgids (clientStep s .call) es =
            List.range' k (numCalls (ClientEvent.call :: es))
          have hnc : numCalls (ClientEvent.call :: es) = 1 := by
            show numCalls es + 1 = 1
            rw [h0]
          rw [hm, ha, hnc]
          rfl
        · exact ⟨hnotp, hf⟩

/-- C8: on one client, any trace of generated-method invocations and
response removals whose number of calls stays within the `u64` range
assigns pairwise-distinct msgids, and no call ever reserves an msgid that
still has a pending entry. -/
theorem msgid_uniqueness (es : List ClientEvent)
    (h : numCalls es ≤ U64) :
    (assignedMsgids initCaller es).Pairwise (· ≠ ·) ∧
      freshAtCalls initCaller es := by
  obtain ⟨ha, hf⟩ := caller_aux es initCaller 0 rfl (by omega)
    (fun m hm => absurd hm (List.not_mem_nil m))
  refine ⟨?_, hf⟩
  rw [ha]
  exact List.nodup_range' _ _

/-- C8 witness: three interleaved calls and one response removal. -/
theorem msgid_uniqueness_witness :
    numCalls [ClientEvent.call, .call, .response 0, .call] ≤ U64 ∧
      ((assignedMsgids initCaller
          [ClientEvent.call, .call, .response 0, .call]).Pairwise (· ≠ ·) ∧
        freshAtCalls initCaller
          [ClientEvent.call, .call, .response 0, .call]) :=
  ⟨by decide, msgid_uniqueness _ (by decide)⟩

/-- C3 (evaluating the code): in the generated method body the writer
mutex is acquired before the `recv` wait and released only after it —
the guard's release does not precede the wait, so the exclusive region
spans the entire blocking wait for the Response. -/
theorem writer_lock_spans_recv_wait :
    callActions.indexOf .lockWriter < callActions.indexOf .recvWait ∧
      callActions.indexOf .recvWait < callActions.indexOf .unlockWriter := by
  constructor <;> decide

/-- Failure of `read_from` on an array whose tag does not extract as `i64`. -/
theorem read_from_errTag (arr : List Value)
    (h : (arr.get? 0).bind Value.as_i64 = none) :
    Message.read_from (.array arr) = .error .noType := by
  have step1 : Message.read_from (.array arr) =
      require ((arr.get? 0).bind Value.as_i64) .noType >>= (fun t =>
        if t = 0 then readRequest arr
        else if t = 1 then readResponse arr
        else if t = 2 then readNotify arr
        else .error (.unknownMessage arr)) := rfl
  rw [step1, h]
  rfl

theorem readRequest_err1 (arr : List Value)
    (h1 : (arr.get? 1).bind Value.as_u64 = none) :
    readRequest arr = .error .noMsgid := by
  unfold readRequest
  rw [h1]
  rfl

theorem readRequest_err2 (arr : List Value) (msgid : Nat)
    (h1 : (arr.get? 1).bind Value.as_u64 = some msgid)
    (h2 : (arr.get? 2).bind Value.as_str = none) :
    readRequest arr = .error .noMethod := by
  unfold readRequest
  rw [h1, h2]
  rfl

theorem readRequest_err3 (arr : List Value) (msgid : Nat) (method : String)
    (h1 : (arr.get? 1).bind Value.as_u64 = some msgid)
    (h2 : (arr.get? 2).bind Value.as_str = some method)
    (h3 : (arr.get? 3).bind Value.as_array = none) :
    readRequest arr = .error .noParams := by
  unfold readRequest
  rw [h1, h2, h3]
  rfl

theorem readResponse_err1 (arr : List Value)
    (h1 : (arr.get? 1).bind Value.as_u64 = none) :
    readResponse arr = .error .noMsgid := by
  unfold readResponse
  rw [h1]
  rfl

theorem readResponse_err2 (arr : List Value) (msgid : Nat)
    (h1 : (arr.get? 1).bind Value.as_u64 = some msgid)
    (h2 : arr.get? 2 = none) :
    readResponse arr = .error .noError := by
  unfold readResponse
  rw [h1, h2]
  rfl

theorem readResponse_err3 (arr : List Value) (msgid : Nat) (error : Value)
    (h1 : (arr.get? 1).bind Value.as_u64 = some msgid)
    (h2 : arr.get? 2 = some error) (h3 : arr.get? 3 = none) :
    readResponse arr = .error .noResult := by
  unfold readResponse
  rw [h1, h2, h3]
  rfl

theorem readNotify_err1 (arr : List Value)
    (h1 : (arr.get? 1).bind Value.as_str = none) :
    readNotify arr = .error .noMethod := by
  unfold readNotify
  rw [h1]
  rfl

theorem readNotify_err2 (arr : List Value) (method : String)
    (h1 : (arr.get? 1).bind Value.as_str = some method)
    (h2 : (arr.get? 2).bind Value.as_array = none) :
    readNotify arr = .error .noParams := by
  unfold readNotify
  rw [h1, h2]
  rfl

/-- Bridging: the code's `as_u64` extraction succeeds exactly when the
spec-side kind check accepts the field. -/
theorem bindU64_isSome (arr : List Value) (i : Nat) :
    ((arr.get? i).bind Value.as_u64).isSome = fieldOk arr i isU64 := by
  cases hg : arr.get? i with
  | none =>
    unfold fieldOk
    rw [hg]
    rfl
  | some v =>
    unfold fieldOk
    rw [hg]
    cases v with
    | integer n =>
      show (if 0 ≤ n ∧ n < 18446744073709551616 then some n.toNat
        else none).isSome = isU64 (.integer n)
      by_cases hc : 0 ≤ n ∧ n < 18446744073709551616
      · rw [if_pos hc]
        show true = decide (0 ≤ n ∧ n < 18446744073709551616)
        rw [decide_eq_true hc]
      · rw [if_neg hc]
        show false = decide (0 ≤ n ∧ n < 18446744073709551616)
        rw [decide_eq_false hc]
    | nil => rfl
    | bool b => rfl
    | float bits => rfl
    | str s => rfl
    | bin bytes => rfl
    | array items => rfl
    | map pairs => rfl
    | ext tag data => rfl

/-- Bridging: `as_str` succeeds exactly when the field is a string. -/
theorem bindStr_isSome (arr : List Value) (i : Nat) :
    ((arr.get? i).bind Value.as_str).isSome = fieldOk arr i isStr := by
  cases hg : arr.get? i with
  | none =>
    unfold fieldOk
    rw [hg]
    rfl
  | some v =>
    unfold fieldOk
    rw [hg]
    cases v <;> rfl

/-- Bridging: `as_array` succeeds exactly when the field is an array. -/
theorem bindArr_isSome (arr : List Value) (i : Nat) :
    ((arr.get? i).bind Value.as_array).isSome = fieldOk arr i isArr := by
  cases hg : arr.get? i with
  | none =>
    unfold fieldOk
    rw [hg]
    rfl
  | some v =>
    unfold fieldOk
    rw [hg]
    cases v <;> rfl

/-- Bridging: a bare `arr.get(i)` succeeds exactly when the field exists. -/
theorem get_isSome (arr : List Value) (i : Nat) :
    (arr.get? i).isSome = fieldOk arr i isAny := by
  cases hg : arr.get? i with
  | none =>
    unfold fieldOk
    rw [hg]
    rfl
  | some v =>
    unfold fieldOk
    rw [hg]
    rfl

/-- The tag-0 arm errors exactly when a required field is missing or of
the wrong kind per the §3 table. -/
theorem isErr_readRequest (arr : List Value) :
    isErr (readRequest arr) =
      !(fieldOk arr 1 isU64 && fieldOk arr 2 isStr && fieldOk arr 3 isArr) := by
  cases h1 : (arr.get? 1).bind Value.as_u64 with
  | none =>
    have e1 : fieldOk arr 1 isU64 = false := by rw [← bindU64_isSome, h1]; rfl
    rw [readRequest_err1 arr h1, e1]
    rfl
  | some msgid =>
    have e1 : fieldOk arr 1 isU64 = true := by rw [← bindU64_isSome, h1]; rfl
    cases h2 : (arr.get? 2).bind Value.as_str with
    | none =>
      have e2 : fieldOk arr 2 isStr = false := by rw [← bindStr_isSome, h2]; rfl
      rw [readRequest_err2 arr msgid h1 h2, e1, e2]
      rfl
    | some method =>
      have e2 : fieldOk arr 2 isStr = true := by rw [← bindStr_isSome, h2]; rfl
      cases h3 : (arr.get? 3).bind Value.as_array with
      | none =>
        have e3 : fieldOk arr 3 isArr = false := by
          rw [← bindArr_isSome, h3]; rfl
        rw [readRequest_err3 arr msgid method h1 h2 h3, e1, e2, e3]
        rfl
      | some params =>
        have e3 : fieldOk arr 3 isArr = true := by
          rw [← bindArr_isSome, h3]; rfl
        rw [readRequest_eval arr msgid method params h1 h2 h3, e1, e2, e3]
        rfl

/-- The tag-1 arm errors exactly when a required field is missing or of
the wrong kind per the §3 table (error/result only need to be present). -/
theorem isErr_readResponse (arr : List Value) :
    isErr (readResponse arr) =
      !(fieldOk arr 1 isU64 && fieldOk arr 2 isAny && fieldOk arr 3 isAny) := by
  cases h1 : (arr.get? 1).bind Value.as_u64 with
  | none =>
    have e1 : fieldOk arr 1 isU64 = false := by rw [← bindU64_isSome, h1]; rfl
    rw [readResponse_err1 arr h1, e1]
    rfl
  | some msgid =>
    have e1 : fieldOk arr 1 isU64 = true := by rw [← bindU64_isSome, h1]; rfl
    cases h2 : arr.get? 2 with
    | none =>
      have e2 : fieldOk arr 2 isAny = false := by rw [← get_isSome, h2]; rfl
      rw [readResponse_err2 arr msgid h1 h2, e1, e2]
      rfl
    | some error =>
      have e2 : fieldOk arr 2 isAny = true := by rw [← get_isSome, h2]; rfl
      cases h3 : arr.get? 3 with
      | none =>
        have e3 : fieldOk arr 3 isAny = false := by rw [← get_isSome, h3]; rfl
        rw [readResponse_err3 arr msgid error h1 h2 h3, e1, e2, e3]
        rfl
      | some result =>
        have e3 : fieldOk arr 3 isAny = true := by rw [← get_isSome, h3]; rfl
        rw [readResponse_eval arr msgid error result h1 h2 h3, e1, e2, e3]
        rfl

/-- The tag-2 arm errors exactly when a required field is missing or of
the wrong kind per the §3 table. -/
theorem isErr_readNotify (arr : List Value) :
    isErr (readNotify arr) =
      !(fieldOk arr 1 isStr && fieldOk arr 2 isArr) := by
  cases h1 : (arr.get? 1).bind Value.as_str with
  | none =>
    have e1 : fieldOk arr 1 isStr = false := by rw [← bindStr_isSome, h1]; rfl
    rw [readNotify_err1 arr h1, e1]
    rfl
  | some method =>
    have e1 : fieldOk arr 1 isStr = true := by rw [← bindStr_isSome, h1]; rfl
    cases h2 : (arr.get? 2).bind Value.as_array with
    | none =>
      have e2 : fieldOk arr 2 isArr = false := by rw [← bindArr_isSome, h2]; rfl
      rw [readNotify_err2 arr method h1 h2, e1, e2]
      rfl
    | some params =>
      have e2 : fieldOk arr 2 isArr = true := by rw [← bindArr_isSome, h2]; rfl
      rw [readNotify_eval arr method params h1 h2, e1, e2]
      rfl

/-- C6: `read_from` fails exactly on the spec's framing-error condition:
non-array top level, missing or non-integer element 0, a required
positional field missing or of the wrong kind for the variant, or an
integer tag outside {0,1,2}; on every other value it succeeds. -/
theorem read_from_err_iff (v : Value) :
    isErr (Message.read_from v) = specFramingError v := by
  have espec : ∀ arr : List Value,
      specFramingError (.array arr) = specArrayFramingError arr :=
    fun _ => rfl
  cases v with
  | array arr =>
    rw [espec arr]
    cases hg : arr.get? 0 with
    | none =>
      have hbind : (arr.get? 0).bind Value.as_i64 = none := by rw [hg]; rfl
      rw [read_from_errTag arr hbind]
      unfold specArrayFramingError
      rw [hg]
      rfl
    | some v0 =>
      cases v0 with
      | integer t =>
        unfold specArrayFramingError
        rw [hg]
        change _ = if t = 0 then
            !(fieldOk arr 1 isU64 && fieldOk arr 2 isStr && fieldOk arr 3 isArr)
          else if t = 1 then
            !(fieldOk arr 1 isU64 && fieldOk arr 2 isAny && fieldOk arr 3 isAny)
          else if t = 2 then
            !(fieldOk arr 1 isStr && fieldOk arr 2 isArr)
          else true
        by_cases hr : -9223372036854775808 ≤ t ∧ t < 9223372036854775808
        · have hbind : (arr.get? 0).bind Value.as_i64 = some t := by
            rw [hg]
            show Value.as_i64 (.integer t) = some t
            exact as_i64_small t hr.1 hr.2
          rw [read_from_tag arr t hbind]
          by_cases ht0 : t = 0
          · rw [if_pos ht0, if_pos ht0]
            exact isErr_readRequest arr
          · rw [if_neg ht0, if_neg ht0]
            by_cases ht1 : t = 1
            · rw [if_pos ht1, if_pos ht1]
              exact isErr_readResponse arr
            · rw [if_neg ht1, if_neg ht1]
              by_cases ht2 : t = 2
              · rw [if_pos ht2, if_pos ht2]
                exact isErr_readNotify arr
              · rw [if_neg ht2, if_neg ht2]
                rfl
        · have hbind : (arr.get? 0).bind Value.as_i64 = none := by
            rw [hg]
            show (if -9223372036854775808 ≤ t ∧ t < 9223372036854775808
              then some t else none) = none
            rw [if_neg hr]
          rw [read_from_errTag arr hbind]
          have ht0 : t ≠ 0 := by rintro rfl; exact hr (by norm_num)
          have ht1 : t ≠ 1 := by rintro rfl; exact hr (by norm_num)
          have ht2 : t ≠ 2 := by rintro rfl; exact hr (by norm_num)
          rw [if_neg ht0, if_neg ht1, if_neg ht2]
          rfl
      | nil =>
        have hbind : (arr.get? 0).bind Value.as_i64 = none := by rw [hg]; rfl
        rw [read_from_errTag arr hbind]
        unfold specArrayFramingError
        rw [hg]
        rfl
      | bool b =>
        have hbind : (arr.get? 0).bind Value.as_i64 = none := by rw [hg]; rfl
        rw [read_from_errTag arr hbind]
        unfold specArrayFramingError
        rw [hg]
        rfl
      | float bits =>
        have hbind : (arr.get? 0).bind Value.as_i64 = none := by rw [hg]; rfl
        rw [read_from_errTag arr hbind]
        unfold specArrayFramingError
        rw [hg]
        rfl
      | str s =>
        have hbind : (arr.get? 0).bind Value.as_i64 = none := by rw [hg]; rfl
        rw [read_from_errTag arr hbind]
        unfold specArrayFramingError
        rw [hg]
        rfl
      | bin bytes =>
        have hbind : (arr.get? 0).bind Value.as_i64 = none := by rw [hg]; rfl
        rw [read_from_errTag arr hbind]
        unfold specArrayFramingError
        rw [hg]
        rfl
      | array items =>
        have hbind : (arr.get? 0).bind Value.as_i64 = none := by rw [hg]; rfl
        rw [read_from_errTag arr hbind]
        unfold specArrayFramingError
        rw [hg]
        rfl
      | map pairs =>
        have hbind : (arr.get? 0).bind Value.as_i64 = none := by rw [hg]; rfl
        rw [read_from_errTag arr hbind]
        unfold specArrayFramingError
        rw [hg]
        rfl
      | ext tag data =>
        have hbind : (arr.get? 0).bind Value.as_i64 = none := by rw [hg]; rfl
        rw [read_from_errTag arr hbind]
        unfold specArrayFramingError
        rw [hg]
        rfl
  | nil => rfl
  | bool b => rfl
  | integer i => rfl
  | float bits => rfl
  | str s => rfl
  | bin bytes => rfl
  | map pairs => rfl
  | ext tag data => rfl

/-- A positional extraction that succeeds on `arr` gives the same value on
`arr ++ extra`: the index must lie inside `arr`. -/
theorem bind_field_append {α : Type} (arr extra : List Value) (i : Nat)
    (f : Value → Option α) (a : α)
    (h : (arr.get? i).bind f = some a) :
    ((arr ++ extra).get? i).bind f = some a := by
  cases hg : arr.get? i with
  | none =>
    rw [hg] at h
    exact Option.noConfusion h
  | some v =>
    have hlt : i < arr.length := by
      rcases List.get?_eq_some.mp hg with ⟨hl, _⟩
      exact hl
    rw [List.get?_append hlt, hg]
    rw [hg] at h
    exact h

/-- Same, for a bare `arr.get(i)`. -/
theorem get_field_append (arr extra : List Value) (i : Nat) (v : Value)
    (h : arr.get? i = some v) : (arr ++ extra).get? i = some v := by
  have hlt : i < arr.length := by
    rcases List.get?_eq_some.mp h with ⟨hl, _⟩
    exact hl
  rw [List.get?_append hlt]
  exact h

/-- The function `readRequest` never looks past index 3: appended elements are ignored. -/
theorem readRequest_extra (arr extra : List Value) (m : Message)
    (h : readRequest arr = .ok m) : readRequest (arr ++ extra) = .ok m := by
  cases h1 : (arr.get? 1).bind Value.as_u64 with
  | none =>
    rw [readRequest_err1 arr h1] at h
    exact Except.noConfusion h
  | some msgid =>
    cases h2 : (arr.get? 2).bind Value.as_str with
    | none =>
      rw [readRequest_err2 arr msgid h1 h2] at h
      exact Except.noConfusion h
    | some method =>
      cases h3 : (arr.get? 3).bind Value.as_array with
      | none =>
        rw [readRequest_err3 arr msgid method h1 h2 h3] at h
        exact Except.noConfusion h
      | some params =>
        rw [readRequest_eval arr msgid method params h1 h2 h3] at h
        injection h with hEq
        subst hEq
        exact readRequest_eval _ msgid method params
          (bind_field_append arr extra 1 Value.as_u64 msgid h1)
          (bind_field_append arr extra 2 Value.as_str method h2)
          (bind_field_append arr extra 3 Value.as_array params h3)

/-- The function `readResponse` never looks past index 3: appended elements are
ignored. -/
theorem readResponse_extra (arr extra : List Value) (m : Message)
    (h : readResponse arr = .ok m) : readResponse (arr ++ extra) = .ok m := by
  cases h1 : (arr.get? 1).bind Value.as_u64 with
  | none =>
    rw [readResponse_err1 arr h1] at h
    exact Except.noConfusion h
  | some msgid =>
    cases h2 : arr.get? 2 with
    | none =>
      rw [readResponse_err2 arr msgid h1 h2] at h
      exact Except.noConfusion h
    | some error =>
      cases h3 : arr.get? 3 with
      | none =>
        rw [readResponse_err3 arr msgid error h1 h2 h3] at h
        exact Except.noConfusion h
      | some result =>
        rw [readResponse_eval arr msgid error result h1 h2 h3] at h
        injection h with hEq
        subst hEq
        exact readResponse_eval _ msgid error result
          (bind_field_append arr extra 1 Value.as_u64 msgid h1)
          (get_field_append arr extra 2 error h2)
          (get_field_append arr extra 3 result h3)

/-- The function `readNotify` never looks past index 2: appended elements are ignored. -/
theorem readNotify_extra (arr extra : List Value) (m : Message)
    (h : readNotify arr = .ok m) : readNotify (arr ++ extra) = .ok m := by
  cases h1 : (arr.get? 1).bind Value.as_str with
  | none =>
    rw [readNotify_err1 arr h1] at h
    exact Except.noConfusion h
  | some method =>
    cases h2 : (arr.get? 2).bind Value.as_array with
    | none =>
      rw [readNotify_err2 arr method h1 h2] at h
      exact Except.noConfusion h
    | some params =>
      rw [readNotify_eval arr method params h1 h2] at h
      injection h with hEq
      subst hEq
      exact readNotify_eval _ method params
        (bind_field_append arr extra 1 Value.as_str method h1)
        (bind_field_append arr extra 2 Value.as_array params h2)

/-- C10: `read_from` destructures only the positions the variant needs;
an array that decodes to a message still decodes to the same message with
any extra trailing elements, which are silently ignored. -/
theorem read_from_extra_elements (arr extra : List Value) (m : Message)
    (h : Message.read_from (.array arr) = .ok m) :
    Message.read_from (.array (arr ++ extra)) = .ok m := by
  cases hg : arr.get? 0 with
  | none =>
    have hbind : (arr.get? 0).bind Value.as_i64 = none := by rw [hg]; rfl
    rw [read_from_errTag arr hbind] at h
    exact Except.noConfusion h
  | some v0 =>
    have hg' : (arr ++ extra).get? 0 = some v0 := get_field_append arr extra 0 v0 hg
    cases ha : Value.as_i64 v0 with
    | none =>
      have hbind : (arr.get? 0).bind Value.as_i64 = none := by
        rw [hg, Option.some_bind]
        exact ha
      rw [read_from_errTag arr hbind] at h
      exact Except.noConfusion h
    | some t =>
      have hbind : (arr.get? 0).bind Value.as_i64 = some t := by
        rw [hg, Option.some_bind]
        exact ha
      have hbind2 : ((arr ++ extra).get? 0).bind Value.as_i64 = some t := by
        rw [hg', Option.some_bind]
        exact ha
      rw [read_from_tag arr t hbind] at h
      rw [read_from_tag (arr ++ extra) t hbind2]
      by_cases ht0 : t = 0
      · rw [if_pos ht0] at h ⊢
        exact readRequest_extra arr extra m h
      · rw [if_neg ht0] at h ⊢
        by_cases ht1 : t = 1
        · rw [if_pos ht1] at h ⊢
          exact readResponse_extra arr extra m h
        · rw [if_neg ht1] at h ⊢
          by_cases ht2 : t = 2
          · rw [if_pos ht2] at h ⊢
            exact readNotify_extra arr extra m h
          · rw [if_neg ht2] at h
            exact Except.noConfusion h

/-- C10 witness: a notify frame with one junk element appended still
decodes, to the same message. -/
theorem read_from_extra_elements_witness :
    Message.read_from (.array [.integer 2, .str "tick", .array []]) =
        .ok (.notify "tick" []) ∧
      Message.read_from
          (.array ([.integer 2, .str "tick", .array []] ++ [.nil])) =
        .ok (.notify "tick" []) :=
  ⟨rfl, read_from_extra_elements [.integer 2, .str "tick", .array []]
    [.nil] (.notify "tick" []) rfl⟩

end NvimRs
